import Mathlib

/-!
Shallow embedding of the tracker core of the PBL repository
(backend/app/registry.py, backend/app/schemas.py, backend/app/main.py,
backend/worker_sim.py).

Conventions of the embedding:
* Wall-clock time (datetime.now in the source) is passed explicitly to every
  operation that reads the clock, as a natural number of seconds.
* Identifiers generated by uuid4 in the source are passed explicitly as
  strings.
* Python dicts (insertion ordered, in-place update) are modelled as
  association lists with lookupKey / setKey below; setKey overwrites the
  first matching key in place and appends a fresh key at the end, exactly
  like dict assignment.
* current_load_percent is a Python float in the source; it is modelled as an
  integer, since every verified behaviour depends only on ordering and
  equality of the stored values, never on float rounding.
* Python exceptions (KeyError) become Except String; the HTTP layer's
  pydantic validation (schemas.py) and error mapping (main.py) are embedded
  for the heartbeat endpoint as heartbeat_endpoint.
* Python's stable list.sort with a key function, followed by taking index 0,
  is embedded as Mathlib's insertionSort (also stable) with the lexicographic
  order on the same key, followed by head?.
-/

namespace PBL

/-- Job lifecycle states, from JobStatus in schemas.py. -/
inductive JobStatus where
  | QUEUED
  | ASSIGNED
  | RUNNING
  | COMPLETED
  | FAILED
deriving DecidableEq, Repr

/-- Hosted model descriptor, from ModelInfo in schemas.py. -/
structure ModelInfo where
  name : String
  version : Option String
  framework : Option String
deriving DecidableEq, Repr

/-- Registration payload, from PeerRegisterRequest in schemas.py. -/
structure PeerRegisterRequest where
  name : String
  host : String
  port : Int
  has_gpu : Bool
  gpu_memory_total_mb : Option Int
  gpu_memory_free_mb : Option Int
  models : List ModelInfo
deriving DecidableEq, Repr

/-- Heartbeat payload, from PeerHeartbeatRequest in schemas.py.
The pydantic range constraint on current_load_percent is embedded
separately as PeerHeartbeatRequest.isValid. -/
structure PeerHeartbeatRequest where
  gpu_memory_free_mb : Option Int
  current_load_percent : Option Int
deriving DecidableEq, Repr

/-- Peer snapshot returned to callers, from PeerResponse in schemas.py. -/
structure PeerResponse where
  id : String
  name : String
  host : String
  port : Int
  has_gpu : Bool
  gpu_memory_total_mb : Option Int
  gpu_memory_free_mb : Option Int
  models : List ModelInfo
  is_online : Bool
deriving DecidableEq, Repr

/-- Job creation payload, from JobCreateRequest in schemas.py. -/
structure JobCreateRequest where
  requester_peer_id : String
  model_name : String
  payload_url : Option String
deriving DecidableEq, Repr

/-- Status update payload, from JobUpdateStatusRequest in schemas.py. -/
structure JobUpdateStatusRequest where
  status : JobStatus
  result_url : Option String
  error_message : Option String
deriving DecidableEq, Repr

/-- Job snapshot returned to callers, from JobResponse in schemas.py.
Note that it has no error_message, created_at or updated_at field. -/
structure JobResponse where
  id : String
  requester_peer_id : String
  assigned_peer_id : Option String
  model_name : String
  status : JobStatus
  payload_url : Option String
  result_url : Option String
deriving DecidableEq, Repr

/-- Stored peer record, the fields set by Peer in registry.py. -/
structure Peer where
  id : String
  name : String
  host : String
  port : Int
  has_gpu : Bool
  gpu_memory_total_mb : Option Int
  gpu_memory_free_mb : Option Int
  models : List ModelInfo
  current_load_percent : Int
  last_heartbeat : Nat
  is_online : Bool
deriving DecidableEq, Repr

/-- Constructor of a stored peer, the body of Peer-init in registry.py:
load 0, last_heartbeat now, online true. -/
def mkPeer (peer_id : String) (data : PeerRegisterRequest) (now : Nat) : Peer :=
  { id := peer_id, name := data.name, host := data.host, port := data.port,
    has_gpu := data.has_gpu, gpu_memory_total_mb := data.gpu_memory_total_mb,
    gpu_memory_free_mb := data.gpu_memory_free_mb, models := data.models,
    current_load_percent := 0, last_heartbeat := now, is_online := true }

/-- Peer.to_response in registry.py. -/
def Peer.to_response (p : Peer) : PeerResponse :=
  { id := p.id, name := p.name, host := p.host, port := p.port,
    has_gpu := p.has_gpu, gpu_memory_total_mb := p.gpu_memory_total_mb,
    gpu_memory_free_mb := p.gpu_memory_free_mb, models := p.models,
    is_online := p.is_online }

/-- Stored job record, the fields set by Job in registry.py. -/
structure Job where
  id : String
  requester_peer_id : String
  assigned_peer_id : Option String
  model_name : String
  payload_url : Option String
  status : JobStatus
  result_url : Option String
  error_message : Option String
  created_at : Nat
  updated_at : Nat
deriving DecidableEq, Repr

/-- Constructor of a stored job, the body of Job-init in registry.py:
status QUEUED, nothing assigned, both timestamps now. -/
def mkJob (job_id : String) (data : JobCreateRequest) (now : Nat) : Job :=
  { id := job_id, requester_peer_id := data.requester_peer_id,
    assigned_peer_id := none, model_name := data.model_name,
    payload_url := data.payload_url, status := JobStatus.QUEUED,
    result_url := none, error_message := none,
    created_at := now, updated_at := now }

/-- Job.to_response in registry.py: error_message, created_at and
updated_at are not copied into the response. -/
def Job.to_response (j : Job) : JobResponse :=
  { id := j.id, requester_peer_id := j.requester_peer_id,
    assigned_peer_id := j.assigned_peer_id, model_name := j.model_name,
    status := j.status, payload_url := j.payload_url,
    result_url := j.result_url }

/-- Python dict read d.get(k): first entry with the key, if any. -/
def lookupKey {α : Type} (k : String) : List (String × α) → Option α
  | [] => none
  | kv :: rest => if kv.1 = k then some kv.2 else lookupKey k rest

/-- Python dict write d[k] = v: overwrite in place if the key exists,
append at the end otherwise. -/
def setKey {α : Type} (k : String) (v : α) : List (String × α) → List (String × α)
  | [] => [(k, v)]
  | kv :: rest => if kv.1 = k then (k, v) :: rest else kv :: setKey k v rest

/-- Python dict d.values(): the values in insertion order. -/
def vals {α : Type} (l : List (String × α)) : List α := l.map Prod.snd

/-- The in-memory registry state from Registry in registry.py. -/
structure Registry where
  peers : List (String × Peer)
  jobs : List (String × Job)
deriving DecidableEq, Repr

/-- Registry() with empty dicts. -/
def Registry.empty : Registry := { peers := [], jobs := [] }

/-- The 30-second liveness window from list_peers in registry.py. -/
def livenessTimeout : Nat := 30

/-- Registry.register_peer: build the peer and insert it under the fresh id. -/
def Registry.register_peer (r : Registry) (peer_id : String)
    (data : PeerRegisterRequest) (now : Nat) : PeerResponse × Registry :=
  ((mkPeer peer_id data now).to_response,
   { r with peers := setKey peer_id (mkPeer peer_id data now) r.peers })

/-- The mutation performed on a found peer by Registry.heartbeat:
fields present in the payload overwrite the stored ones, absent fields are
untouched, last_heartbeat is set to now and is_online is forced true. -/
def updateFromHeartbeat (p : Peer) (data : PeerHeartbeatRequest) (now : Nat) : Peer :=
  let p1 := match data.gpu_memory_free_mb with
    | some v => { p with gpu_memory_free_mb := some v }
    | none => p
  let p2 := match data.current_load_percent with
    | some v => { p1 with current_load_percent := v }
    | none => p1
  { p2 with last_heartbeat := now, is_online := true }

/-- Registry.heartbeat: KeyError when the peer is unknown, otherwise the
partial update above applied in place. -/
def Registry.heartbeat (r : Registry) (peer_id : String)
    (data : PeerHeartbeatRequest) (now : Nat) :
    Except String (PeerResponse × Registry) :=
  match lookupKey peer_id r.peers with
  | none => Except.error "Peer not found"
  | some p =>
      Except.ok ((updateFromHeartbeat p data now).to_response,
        { r with peers := setKey peer_id (updateFromHeartbeat p data now) r.peers })

/-- The per-peer marking loop at the top of Registry.list_peers: a peer not
heard from for more than 30 seconds has its is_online flag cleared; the flag
is never set back to true here. -/
def markPeer (now : Nat) (p : Peer) : Peer :=
  if now - p.last_heartbeat > livenessTimeout then { p with is_online := false } else p

/-- The marking loop applied to the whole peer dict. -/
def markAll (now : Nat) (l : List (String × Peer)) : List (String × Peer) :=
  l.map (fun kv => (kv.1, markPeer now kv.2))

/-- Registry.list_peers: mark stale peers offline (a persistent side effect
on the registry), then return all peers or only the online ones. -/
def Registry.list_peers (r : Registry) (only_online : Bool) (now : Nat) :
    List PeerResponse × Registry :=
  ((if only_online then (vals (markAll now r.peers)).filter (fun p2 => p2.is_online)
    else vals (markAll now r.peers)).map Peer.to_response,
   { r with peers := markAll now r.peers })

/-- The candidate filter of Registry._select_peer_for_model: stored online
flag set, has a GPU, and advertises a model whose name equals the requested
one exactly. -/
def eligible (model_name : String) (p : Peer) : Bool :=
  p.is_online && p.has_gpu && p.models.any (fun m => m.name == model_name)

/-- The sort key of Registry._select_peer_for_model: negated free GPU memory
with None as 0, then current load. -/
def schedKey (p : Peer) : Int × Int :=
  (-(p.gpu_memory_free_mb.getD 0), p.current_load_percent)

/-- Lexicographic comparison of sort keys, matching Python tuple ordering. -/
def schedLe (a b : Peer) : Prop :=
  (schedKey a).1 < (schedKey b).1 ∨
    ((schedKey a).1 = (schedKey b).1 ∧ (schedKey a).2 ≤ (schedKey b).2)

instance : DecidableRel schedLe := fun a b => by
  unfold schedLe
  infer_instance

/-- Registry._select_peer_for_model: filter the candidates, sort them stably
by the key and take the first (None when there are no candidates). -/
def Registry.select_peer_for_model (r : Registry) (model_name : String) : Option Peer :=
  (List.insertionSort schedLe ((vals r.peers).filter (eligible model_name))).head?

/-- The assignment step inside Registry.create_job: when a peer was selected,
record its id on the job and move the job to ASSIGNED. -/
def assignJob (job : Job) (sel : Option Peer) : Job :=
  match sel with
  | some peer => { job with assigned_peer_id := some peer.id, status := JobStatus.ASSIGNED }
  | none => job

/-- Registry.create_job: make the job, try to select a peer for its model,
assign on success, store the job and return its snapshot. -/
def Registry.create_job (r : Registry) (job_id : String)
    (data : JobCreateRequest) (now : Nat) : JobResponse × Registry :=
  ((assignJob (mkJob job_id data now) (r.select_peer_for_model data.model_name)).to_response,
   { r with
     jobs := setKey job_id
       (assignJob (mkJob job_id data now) (r.select_peer_for_model data.model_name)) r.jobs })

/-- Registry.get_job: KeyError when absent, otherwise the snapshot. -/
def Registry.get_job (r : Registry) (job_id : String) : Except String JobResponse :=
  match lookupKey job_id r.jobs with
  | none => Except.error "Job not found"
  | some j => Except.ok j.to_response

/-- Registry.list_jobs. -/
def Registry.list_jobs (r : Registry) : List JobResponse :=
  (vals r.jobs).map Job.to_response

/-- The mutation performed by Registry.update_job_status on a found job:
status, result_url and error_message are overwritten unconditionally with
the payload values, updated_at is set to now. -/
def applyUpdate (j : Job) (data : JobUpdateStatusRequest) (now : Nat) : Job :=
  { j with
    status := data.status, result_url := data.result_url,
    error_message := data.error_message, updated_at := now }

/-- Registry.update_job_status: KeyError when absent, otherwise the
unconditional overwrite above, in place. -/
def Registry.update_job_status (r : Registry) (job_id : String)
    (data : JobUpdateStatusRequest) (now : Nat) :
    Except String (JobResponse × Registry) :=
  match lookupKey job_id r.jobs with
  | none => Except.error "Job not found"
  | some j =>
      Except.ok ((applyUpdate j data now).to_response,
        { r with jobs := setKey job_id (applyUpdate j data now) r.jobs })

/-- Error kinds surfaced by the HTTP layer in main.py: 404 for unknown
identifiers, 422 for a payload rejected by pydantic validation. -/
inductive HttpError where
  | notFound (detail : String)
  | validationError
deriving DecidableEq, Repr

/-- The pydantic field constraint on PeerHeartbeatRequest in schemas.py:
current_load_percent, when present, must lie in the range 0 to 100;
gpu_memory_free_mb is unconstrained. -/
def PeerHeartbeatRequest.isValid (data : PeerHeartbeatRequest) : Bool :=
  match data.current_load_percent with
  | some v => decide (0 ≤ v ∧ v ≤ 100)
  | none => true

/-- The heartbeat endpoint of main.py: pydantic validates the payload before
the handler runs (422 on violation), then KeyError maps to 404. -/
def heartbeat_endpoint (r : Registry) (peer_id : String)
    (data : PeerHeartbeatRequest) (now : Nat) :
    Except HttpError (PeerResponse × Registry) :=
  if data.isValid then
    match r.heartbeat peer_id data now with
    | Except.ok res => Except.ok res
    | Except.error _ => Except.error (HttpError.notFound "Peer not found")
  else
    Except.error HttpError.validationError

/-- Modelled from the spec: the operation surface lists NextAssignedJob(peerId)
and worker_sim.py polls the route workers/peer-id/next-job, but no such route
or registry method exists under the backend sources; following the spec's
words, it returns one job currently assigned to the peer with status ASSIGNED
(first in iteration order, the spec leaves the tie-break unspecified), and
null once no such job remains. -/
def Registry.next_assigned_job (r : Registry) (peer_id : String) : Option JobResponse :=
  (((vals r.jobs).filter
      (fun j => j.assigned_peer_id == some peer_id && j.status == JobStatus.ASSIGNED)).head?).map
    Job.to_response

/-- Well-formedness of the peer dict: keys are distinct (Python dict keys
are) and each stored peer carries its own key as id (register_peer writes the
fresh id both as the key and into the record). -/
def Registry.PeersWF (r : Registry) : Prop :=
  (r.peers.map Prod.fst).Nodup ∧ ∀ kv ∈ r.peers, kv.2.id = kv.1

instance (r : Registry) : Decidable r.PeersWF := by
  unfold Registry.PeersWF
  infer_instance

deriving instance DecidableEq for Except

/-! Concrete fixtures used by witnesses and counterexamples. -/

/-- The resnet50 model descriptor of the scenarios in the spec. -/
def modelR : ModelInfo := { name := "resnet50", version := none, framework := none }

/-- Peer A of the spec scenario: GPU, 4096 MB free, advertising resnet50. -/
def peerA : Peer :=
  { id := "A", name := "peer-a", host := "ha", port := 1, has_gpu := true,
    gpu_memory_total_mb := some 8192, gpu_memory_free_mb := some 4096,
    models := [modelR], current_load_percent := 0, last_heartbeat := 0,
    is_online := true }

/-- Peer B of the spec scenario: like A but 6000 MB free. -/
def peerB : Peer := { peerA with id := "B", name := "peer-b", gpu_memory_free_mb := some 6000 }

/-- A registry holding only peer A. -/
def rA1 : Registry := { peers := [("A", peerA)], jobs := [] }

/-- A registry holding peers A and B. -/
def rAB : Registry := { peers := [("A", peerA), ("B", peerB)], jobs := [] }

/-- A job request for resnet50. -/
def reqR : JobCreateRequest :=
  { requester_peer_id := "A", model_name := "resnet50", payload_url := none }

/-- A job request for a model nobody advertises. -/
def reqBert : JobCreateRequest :=
  { requester_peer_id := "A", model_name := "bert-large", payload_url := none }

/-- A freshly created, unassigned job. -/
def jA : Job := mkJob "J" reqR 0

/-- A registry holding only the queued job jA. -/
def rJ : Registry := { peers := [], jobs := [("J", jA)] }

/-- Update payload: COMPLETED with result ok. -/
def updOK : JobUpdateStatusRequest :=
  { status := JobStatus.COMPLETED, result_url := some "ok", error_message := none }

/-- Update payload: FAILED with an error message. -/
def updErr : JobUpdateStatusRequest :=
  { status := JobStatus.FAILED, result_url := none, error_message := some "boom" }

/-- Update payload: back to QUEUED. -/
def updQ : JobUpdateStatusRequest :=
  { status := JobStatus.QUEUED, result_url := none, error_message := none }

/-- Update payload: RUNNING. -/
def updRun : JobUpdateStatusRequest :=
  { status := JobStatus.RUNNING, result_url := none, error_message := none }

/-- The job jA as assigned to peer A. -/
def jAsg : Job := { jA with assigned_peer_id := some "A", status := JobStatus.ASSIGNED }

/-- A registry holding the assigned job jAsg. -/
def r3 : Registry := { peers := [], jobs := [("J", jAsg)] }

/-- The registry r3 after the assigned job reports RUNNING. -/
def r3run : Registry :=
  match Registry.update_job_status r3 "J" updRun 2 with
  | Except.ok res => res.2
  | Except.error _ => r3

/-- A heartbeat carrying an out-of-range load of 150. -/
def hb150 : PeerHeartbeatRequest := { gpu_memory_free_mb := none, current_load_percent := some 150 }

/-- The worker's heartbeat payload from worker_sim.py: 5000 MB free, load 10. -/
def hb10 : PeerHeartbeatRequest := { gpu_memory_free_mb := some 5000, current_load_percent := some 10 }

/-- The registry rA1 after creating job J at time 0 (job assigned to A). -/
def r4a : Registry := (Registry.create_job rA1 "J" reqR 0).2

/-- The stored job of rJ after updOK is applied at time 5. -/
def j7 : Job := applyUpdate jA updOK 5

/-- The registry rJ after updOK is applied at time 5. -/
def r7 : Registry := { rJ with jobs := setKey "J" j7 rJ.jobs }

/-- The stored job of rJ after updErr is applied at time 5. -/
def j10a : Job := applyUpdate jA updErr 5

/-- The stored job of rJ after updErr without its error message is applied at time 9. -/
def j10b : Job := applyUpdate jA { updErr with error_message := none } 9

/-- The registry rJ after updErr is applied at time 5. -/
def r10a : Registry := { rJ with jobs := setKey "J" j10a rJ.jobs }

/-- The registry rJ after updErr without its error message is applied at time 9. -/
def r10b : Registry := { rJ with jobs := setKey "J" j10b rJ.jobs }

/-! Helper lemmas about the association-list dict model. -/

theorem lookupKey_mem {α : Type} {k : String} {v : α} :
    ∀ {l : List (String × α)}, lookupKey k l = some v → (k, v) ∈ l := by
  intro l
  induction l with
  | nil => intro h; simp [lookupKey] at h
  | cons kv rest ih =>
      intro h
      obtain ⟨k1, v1⟩ := kv
      by_cases hk : k1 = k
      · subst hk
        simp [lookupKey] at h
        subst h
        exact List.mem_cons_self _ _
      · simp [lookupKey, hk] at h
        exact List.mem_cons_of_mem _ (ih h)

theorem lookupKey_of_mem_nodup {α : Type} {k : String} {v : α} :
    ∀ {l : List (String × α)}, (l.map Prod.fst).Nodup → (k, v) ∈ l →
      lookupKey k l = some v := by
  intro l
  induction l with
  | nil => intro _ hm; simp at hm
  | cons kv rest ih =>
      intro hn hm
      obtain ⟨k1, v1⟩ := kv
      rw [List.map_cons, List.nodup_cons] at hn
      rcases List.mem_cons.mp hm with heq | hm2
      · rw [Prod.mk.injEq] at heq
        obtain ⟨h1, h2⟩ := heq
        subst h1
        subst h2
        simp [lookupKey]
      · have hne : k1 ≠ k := by
          intro he
          subst he
          have hmem : k1 ∈ rest.map Prod.fst := List.mem_map_of_mem Prod.fst hm2
          exact hn.1 hmem
        simp only [lookupKey]
        rw [if_neg hne]
        exact ih hn.2 hm2

theorem lookupKey_setKey_self {α : Type} (k : String) (v : α) :
    ∀ l : List (String × α), lookupKey k (setKey k v l) = some v := by
  intro l
  induction l with
  | nil => simp [setKey, lookupKey]
  | cons kv rest ih =>
      by_cases hk : kv.1 = k
      · simp only [setKey]
        rw [if_pos hk]
        simp [lookupKey]
      · simp only [setKey]
        rw [if_neg hk]
        simp only [lookupKey]
        rw [if_neg hk]
        exact ih

theorem lookupKey_setKey_ne {α : Type} {k k2 : String} (v : α) (h : k2 ≠ k) :
    ∀ l : List (String × α), lookupKey k2 (setKey k v l) = lookupKey k2 l := by
  intro l
  induction l with
  | nil =>
      simp only [setKey, lookupKey]
      rw [if_neg (Ne.symm h)]
  | cons kv rest ih =>
      by_cases hk : kv.1 = k
      · simp only [setKey]
        rw [if_pos hk]
        simp only [lookupKey]
        rw [if_neg (Ne.symm h), if_neg (by rw [hk]; exact Ne.symm h)]
      · simp only [setKey]
        rw [if_neg hk]
        simp only [lookupKey]
        by_cases hk2 : kv.1 = k2
        · rw [if_pos hk2, if_pos hk2]
        · rw [if_neg hk2, if_neg hk2, ih]

theorem map_fst_setKey {α : Type} {k : String} {v w : α} :
    ∀ {l : List (String × α)}, lookupKey k l = some w →
      (setKey k v l).map Prod.fst = l.map Prod.fst := by
  intro l
  induction l with
  | nil => intro h; simp [lookupKey] at h
  | cons kv rest ih =>
      intro h
      by_cases hk : kv.1 = k
      · simp only [setKey]
        rw [if_pos hk]
        simp [hk]
      · simp only [lookupKey] at h
        rw [if_neg hk] at h
        simp only [setKey]
        rw [if_neg hk]
        simp [ih h]

theorem mem_setKey_self {α : Type} (k : String) (v : α) :
    ∀ l : List (String × α), (k, v) ∈ setKey k v l := by
  intro l
  induction l with
  | nil => simp [setKey]
  | cons kv rest ih =>
      by_cases hk : kv.1 = k
      · simp only [setKey]
        rw [if_pos hk]
        exact List.mem_cons_self _ _
      · simp only [setKey]
        rw [if_neg hk]
        exact List.mem_cons_of_mem _ ih

theorem mem_setKey_of_ne {α : Type} {k k2 : String} {v v2 : α} (h : k2 ≠ k) :
    ∀ {l : List (String × α)}, ((k2, v2) ∈ setKey k v l ↔ (k2, v2) ∈ l) := by
  intro l
  induction l with
  | nil =>
      constructor
      · intro hm
        simp [setKey] at hm
        exact absurd hm.1 h
      · intro hm
        simp at hm
  | cons kv rest ih =>
      obtain ⟨k1, v1⟩ := kv
      by_cases hk : k1 = k
      · subst hk
        have hs : setKey k1 v ((k1, v1) :: rest) = (k1, v) :: rest := by
          simp [setKey]
        rw [hs]
        simp only [List.mem_cons, Prod.mk.injEq]
        constructor
        · rintro (⟨he, hv⟩ | hm2)
          · exact absurd he h
          · exact Or.inr hm2
        · rintro (⟨he, hv⟩ | hm2)
          · exact absurd he h
          · exact Or.inr hm2
      · simp only [setKey]
        rw [if_neg hk]
        simp only [List.mem_cons]
        rw [ih]

theorem setKey_setKey_self {α : Type} (k : String) (v : α) :
    ∀ l : List (String × α), setKey k v (setKey k v l) = setKey k v l := by
  intro l
  induction l with
  | nil => simp [setKey]
  | cons kv rest ih =>
      by_cases hk : kv.1 = k
      · simp [setKey, hk]
      · simp [setKey, hk, ih]

/-- Values of the marked dict are the marked values. -/
theorem vals_markAll (now : Nat) (l : List (String × Peer)) :
    vals (markAll now l) = l.map (fun kv => markPeer now kv.2) := by
  simp [vals, markAll, List.map_map]

/-- Marking never changes a peer's identity. -/
theorem markPeer_id (now : Nat) (p : Peer) : (markPeer now p).id = p.id := by
  unfold markPeer
  split <;> rfl

/-- A stale peer is marked offline. -/
theorem markPeer_stale {now : Nat} {p : Peer} (h : now - p.last_heartbeat > livenessTimeout) :
    (markPeer now p).is_online = false := by
  unfold markPeer
  rw [if_pos h]

/-- A peer whose heartbeat just happened is not marked. -/
theorem markPeer_fresh {now : Nat} {p : Peer} (h : p.last_heartbeat = now) :
    markPeer now p = p := by
  unfold markPeer
  rw [h, Nat.sub_self, if_neg (by decide)]

/-- Field-by-field description of the heartbeat mutation. -/
theorem updateFromHeartbeat_fields (p : Peer) (data : PeerHeartbeatRequest) (now : Nat) :
    (updateFromHeartbeat p data now).id = p.id ∧
    (updateFromHeartbeat p data now).name = p.name ∧
    (updateFromHeartbeat p data now).host = p.host ∧
    (updateFromHeartbeat p data now).port = p.port ∧
    (updateFromHeartbeat p data now).has_gpu = p.has_gpu ∧
    (updateFromHeartbeat p data now).gpu_memory_total_mb = p.gpu_memory_total_mb ∧
    (updateFromHeartbeat p data now).models = p.models ∧
    (updateFromHeartbeat p data now).last_heartbeat = now ∧
    (updateFromHeartbeat p data now).is_online = true ∧
    (updateFromHeartbeat p data now).gpu_memory_free_mb =
      (match data.gpu_memory_free_mb with
        | some v => some v
        | none => p.gpu_memory_free_mb) ∧
    (updateFromHeartbeat p data now).current_load_percent =
      (match data.current_load_percent with
        | some v => v
        | none => p.current_load_percent) := by
  obtain ⟨mf, lp⟩ := data
  cases mf <;> cases lp <;> simp [updateFromHeartbeat]

/-- Applying the same heartbeat payload twice at the same instant is the
same as applying it once. -/
theorem updateFromHeartbeat_idem (p : Peer) (data : PeerHeartbeatRequest) (now : Nat) :
    updateFromHeartbeat (updateFromHeartbeat p data now) data now =
      updateFromHeartbeat p data now := by
  obtain ⟨mf, lp⟩ := data
  cases mf <;> cases lp <;> simp [updateFromHeartbeat]

theorem mem_of_head?_eq {α : Type} {l : List α} {a : α} (h : l.head? = some a) : a ∈ l := by
  cases l with
  | nil => simp at h
  | cons b t =>
      simp at h
      subst h
      exact List.mem_cons_self _ _

theorem eq_nil_of_head?_eq_none {α : Type} {l : List α} (h : l.head? = none) : l = [] := by
  cases l with
  | nil => rfl
  | cons b t => simp at h

/-! Properties of the scheduling order and of peer selection. -/

theorem schedLe_refl (a : Peer) : schedLe a a := Or.inr ⟨rfl, le_refl _⟩

instance : IsTotal Peer schedLe := by
  constructor
  intro a b
  unfold schedLe
  rcases lt_trichotomy (schedKey a).1 (schedKey b).1 with h | h | h
  · exact Or.inl (Or.inl h)
  · rcases le_total (schedKey a).2 (schedKey b).2 with h2 | h2
    · exact Or.inl (Or.inr ⟨h, h2⟩)
    · exact Or.inr (Or.inr ⟨h.symm, h2⟩)
  · exact Or.inr (Or.inl h)

instance : IsTrans Peer schedLe := by
  constructor
  intro a b c h1 h2
  unfold schedLe at *
  rcases h1 with h1 | ⟨h1a, h1b⟩
  · rcases h2 with h2 | ⟨h2a, h2b⟩
    · exact Or.inl (h1.trans h2)
    · exact Or.inl (h2a ▸ h1)
  · rcases h2 with h2 | ⟨h2a, h2b⟩
    · exact Or.inl (h1a ▸ h2)
    · exact Or.inr ⟨h1a.trans h2a, h1b.trans h2b⟩

/-- The head of a list sorted by the scheduling order is a minimum. -/
theorem head_min_of_sorted {l : List Peer} {q : Peer}
    (hs : l.Sorted schedLe) (hh : l.head? = some q) : ∀ p ∈ l, schedLe q p := by
  cases l with
  | nil => simp at hh
  | cons a t =>
      simp at hh
      intro p hp
      rcases List.mem_cons.mp hp with heq | hp2
      · rw [heq, ← hh]
        exact schedLe_refl a
      · rw [← hh]
        exact (List.sorted_cons.mp hs).1 p hp2

/-- When selection returns a peer, that peer is a stored candidate that is
minimal for the scheduling order among all candidates. -/
theorem select_some_spec {r : Registry} {mn : String} {q : Peer}
    (h : r.select_peer_for_model mn = some q) :
    q ∈ vals r.peers ∧ eligible mn q = true ∧
      ∀ p ∈ vals r.peers, eligible mn p = true → schedLe q p := by
  unfold Registry.select_peer_for_model at h
  have hsorted :
      (List.insertionSort schedLe ((vals r.peers).filter (eligible mn))).Sorted schedLe :=
    List.sorted_insertionSort schedLe _
  have hperm :
      (List.insertionSort schedLe ((vals r.peers).filter (eligible mn))).Perm
        ((vals r.peers).filter (eligible mn)) :=
    List.perm_insertionSort schedLe _
  have hqs : q ∈ List.insertionSort schedLe ((vals r.peers).filter (eligible mn)) :=
    mem_of_head?_eq h
  have hqc : q ∈ (vals r.peers).filter (eligible mn) := hperm.mem_iff.mp hqs
  have hqf := List.mem_filter.mp hqc
  refine ⟨hqf.1, hqf.2, ?_⟩
  intro p hp hep
  have hpc : p ∈ (vals r.peers).filter (eligible mn) := List.mem_filter.mpr ⟨hp, hep⟩
  have hps : p ∈ List.insertionSort schedLe ((vals r.peers).filter (eligible mn)) :=
    hperm.mem_iff.mpr hpc
  exact head_min_of_sorted hsorted h p hps

/-- When selection returns nothing, no stored peer passes the candidate
filter. -/
theorem select_none_spec {r : Registry} {mn : String}
    (h : r.select_peer_for_model mn = none) :
    ∀ p ∈ vals r.peers, eligible mn p = false := by
  unfold Registry.select_peer_for_model at h
  have hnil := eq_nil_of_head?_eq_none h
  have hperm :
      (List.insertionSort schedLe ((vals r.peers).filter (eligible mn))).Perm
        ((vals r.peers).filter (eligible mn)) :=
    List.perm_insertionSort schedLe _
  rw [hnil] at hperm
  have hcnil : (vals r.peers).filter (eligible mn) = [] := hperm.symm.eq_nil
  intro p hp
  cases he : eligible mn p with
  | false => rfl
  | true =>
      have hpc : p ∈ (vals r.peers).filter (eligible mn) := List.mem_filter.mpr ⟨hp, he⟩
      rw [hcnil] at hpc
      simp at hpc

/-- Mapped images of the dict values agree after writing two values with
equal images under the same key; used for the hidden-field claims. -/
theorem map_snd_setKey_congr {α β : Type} (f : α → β) {k : String} {v1 v2 : α}
    (h : f v1 = f v2) :
    ∀ l : List (String × α),
      ((setKey k v1 l).map Prod.snd).map f = ((setKey k v2 l).map Prod.snd).map f := by
  intro l
  induction l with
  | nil => simp [setKey, h]
  | cons kv rest ih =>
      by_cases hk : kv.1 = k
      · simp only [setKey]
        rw [if_pos hk, if_pos hk]
        simp [h]
      · simp only [setKey]
        rw [if_neg hk, if_neg hk]
        simp only [List.map_cons]
        rw [ih]

/-! Claim theorems. -/

/-- Claim C1: for every model name, among the eligible candidate peers the
selection performed at job creation ranks by descending free GPU memory
(null treated as zero), breaks ties by ascending current load percentage,
and assigns the single top-ranked candidate, so the created job is ASSIGNED
to it.  Instantiated in the witness on the two-peer 4096-vs-6000 scenario. -/
theorem claim1_selection_ranks_and_assigns
    (r : Registry) (d : JobCreateRequest) (job_id : String) (now : Nat) (q : Peer)
    (h : r.select_peer_for_model d.model_name = some q) :
    q ∈ vals r.peers ∧ eligible d.model_name q = true ∧
    (∀ p ∈ vals r.peers, eligible d.model_name p = true →
      p.gpu_memory_free_mb.getD 0 < q.gpu_memory_free_mb.getD 0 ∨
        (p.gpu_memory_free_mb.getD 0 = q.gpu_memory_free_mb.getD 0 ∧
          q.current_load_percent ≤ p.current_load_percent)) ∧
    (Registry.create_job r job_id d now).1.assigned_peer_id = some q.id ∧
    (Registry.create_job r job_id d now).1.status = JobStatus.ASSIGNED := by
  obtain ⟨hm, he, hmin⟩ := select_some_spec h
  refine ⟨hm, he, ?_, ?_, ?_⟩
  · intro p hp hep
    have hle := hmin p hp hep
    unfold schedLe schedKey at hle
    rcases hle with h1 | ⟨h1, h2⟩
    · left
      simp only at h1
      omega
    · right
      constructor
      · simp only at h1
        omega
      · exact h2
  · simp [Registry.create_job, h, assignJob, Job.to_response]
  · simp [Registry.create_job, h, assignJob, Job.to_response]

/-- Witness for C1: with peer A free 4096 and peer B free 6000, both
advertising resnet50, B is selected and the created job is ASSIGNED to B. -/
theorem claim1_witness :
    rAB.select_peer_for_model reqR.model_name = some peerB ∧
    (Registry.create_job rAB "J" reqR 0).1.assigned_peer_id = some "B" ∧
    (Registry.create_job rAB "J" reqR 0).1.status = JobStatus.ASSIGNED := by
  refine ⟨by decide, ?_, ?_⟩
  · exact (claim1_selection_ranks_and_assigns rAB reqR "J" 0 peerB (by decide)).2.2.2.1
  · exact (claim1_selection_ranks_and_assigns rAB reqR "J" 0 peerB (by decide)).2.2.2.2

/-- Claim C2 as stated is false: selection reads only the stored is_online
flag and never re-evaluates the heartbeat age, so a peer whose last
heartbeat is 100 seconds old (beyond the 30-second liveness timeout, hence
offline under the claim's definition) is still assigned at job creation
when no listing has cleared its flag. -/
theorem claim2_counterexample :
    (Registry.create_job rA1 "J" reqR 100).1.assigned_peer_id = some "A" ∧
    (Registry.create_job rA1 "J" reqR 100).1.status = JobStatus.ASSIGNED ∧
    ¬(100 - peerA.last_heartbeat ≤ livenessTimeout) := by
  refine ⟨by decide, by decide, by decide⟩

/-- Amended C2: peer selection considers exactly the peers whose stored
is_online flag is set (the flag reflects liveness only as of the last
marking in list_peers, a heartbeat or registration), that are GPU-capable
and that advertise a model whose name equals the requested one exactly; no
peer outside this flag-based set is ever selected, and when no such peer
exists nothing is selected. -/
theorem claim2_amended_flag_eligibility (r : Registry) (mn : String) :
    (∀ q, r.select_peer_for_model mn = some q →
      q ∈ vals r.peers ∧ q.is_online = true ∧ q.has_gpu = true ∧
        q.models.any (fun m => m.name == mn) = true) ∧
    (r.select_peer_for_model mn = none → ∀ p ∈ vals r.peers, eligible mn p = false) := by
  constructor
  · intro q h
    obtain ⟨hm, he, hmin⟩ := select_some_spec h
    unfold eligible at he
    rw [Bool.and_eq_true, Bool.and_eq_true] at he
    exact ⟨hm, he.1.1, he.1.2, he.2⟩
  · intro h
    exact select_none_spec h

/-- Witness for the amended C2 on the two-peer registry. -/
theorem claim2_amended_witness :
    rAB.select_peer_for_model "resnet50" = some peerB ∧
    peerB ∈ vals rAB.peers ∧ peerB.is_online = true ∧ peerB.has_gpu = true ∧
    peerB.models.any (fun m => m.name == "resnet50") = true := by
  have h := (claim2_amended_flag_eligibility rAB "resnet50").1 peerB (by decide)
  exact ⟨by decide, h.1, h.2.1, h.2.2.1, h.2.2.2⟩

/-- Claim C3 (operation modelled from the spec, see next_assigned_job):
NextAssignedJob returns one job currently assigned to the peer with status
ASSIGNED, and returns null once no job for that peer remains ASSIGNED. -/
theorem claim3_next_assigned_job (r : Registry) (peer_id : String) :
    (∀ resp, Registry.next_assigned_job r peer_id = some resp →
      ∃ j, j ∈ vals r.jobs ∧ j.assigned_peer_id = some peer_id ∧
        j.status = JobStatus.ASSIGNED ∧ resp = Job.to_response j ∧
        resp.assigned_peer_id = some peer_id ∧ resp.status = JobStatus.ASSIGNED) ∧
    ((∀ j ∈ vals r.jobs,
        ¬(j.assigned_peer_id = some peer_id ∧ j.status = JobStatus.ASSIGNED)) →
      Registry.next_assigned_job r peer_id = none) := by
  constructor
  · intro resp h
    unfold Registry.next_assigned_job at h
    rw [Option.map_eq_some'] at h
    obtain ⟨j, hj, hresp⟩ := h
    have hjf := List.mem_filter.mp (mem_of_head?_eq hj)
    rw [Bool.and_eq_true, beq_iff_eq, beq_iff_eq] at hjf
    refine ⟨j, hjf.1, hjf.2.1, hjf.2.2, hresp.symm, ?_, ?_⟩
    · rw [hresp.symm]
      simp [Job.to_response, hjf.2.1]
    · rw [hresp.symm]
      simp [Job.to_response, hjf.2.2]
  · intro h
    unfold Registry.next_assigned_job
    have hf : (vals r.jobs).filter
        (fun j => j.assigned_peer_id == some peer_id && j.status == JobStatus.ASSIGNED) = [] := by
      rw [List.filter_eq_nil_iff]
      intro j hj
      intro hb
      rw [Bool.and_eq_true, beq_iff_eq, beq_iff_eq] at hb
      exact h j hj hb
    rw [hf]
    rfl

/-- Witness for C3: the registry r3 holds one job ASSIGNED to peer A and
NextAssignedJob returns its snapshot; after that job reports RUNNING
(r3run) the poll returns null. -/
theorem claim3_witness :
    Registry.next_assigned_job r3 "A" = some (Job.to_response jAsg) ∧
    (∀ j ∈ vals r3run.jobs,
      ¬(j.assigned_peer_id = some "A" ∧ j.status = JobStatus.ASSIGNED)) ∧
    Registry.next_assigned_job r3run "A" = none := by
  refine ⟨by decide, by decide, ?_⟩
  exact (claim3_next_assigned_job r3run "A").2 (by decide)

/-- Claim C4 as stated is false: the unconstrained status setter can move an
assigned job back to QUEUED without clearing its assigned peer, so a
reachable state holds a QUEUED job with a non-null assigned peer.  Concretely:
create a job on the one-peer registry (it gets ASSIGNED to A), then update
its status to QUEUED; the stored job reports QUEUED with assigned peer A. -/
theorem claim4_counterexample :
    Except.map (fun x => (x.1.status, x.1.assigned_peer_id))
        (Registry.update_job_status r4a "J" updQ 1) =
      Except.ok (JobStatus.QUEUED, some "A") := by
  decide

/-- Amended C4: immediately after job creation the invariant does hold, with
the only statuses at creation being QUEUED and ASSIGNED: the assigned peer
is non-null iff the status is ASSIGNED, and a QUEUED job has a null assigned
peer.  Status updates never modify the assigned peer, but since they may set
any status, the equivalence is not preserved across arbitrary UpdateStatus
calls. -/
theorem claim4_amended_assignment_iff_at_creation
    (r : Registry) (job_id : String) (d : JobCreateRequest) (now : Nat) :
    ((Registry.create_job r job_id d now).1.assigned_peer_id ≠ none ↔
      (Registry.create_job r job_id d now).1.status = JobStatus.ASSIGNED) ∧
    ((Registry.create_job r job_id d now).1.status = JobStatus.QUEUED →
      (Registry.create_job r job_id d now).1.assigned_peer_id = none) ∧
    ((Registry.create_job r job_id d now).1.status = JobStatus.QUEUED ∨
      (Registry.create_job r job_id d now).1.status = JobStatus.ASSIGNED) ∧
    (∀ (r2 : Registry) (jid2 : String) (d2 : JobUpdateStatusRequest) (now2 : Nat) res,
      Registry.update_job_status r2 jid2 d2 now2 = Except.ok res →
      ∀ k j, lookupKey k r2.jobs = some j →
        ∃ j2, lookupKey k res.2.jobs = some j2 ∧
          j2.assigned_peer_id = j.assigned_peer_id) := by
  refine ⟨?_, ?_, ?_, ?_⟩
  · cases hsel : r.select_peer_for_model d.model_name with
    | none => simp [Registry.create_job, hsel, assignJob, Job.to_response, mkJob]
    | some p => simp [Registry.create_job, hsel, assignJob, Job.to_response]
  · cases hsel : r.select_peer_for_model d.model_name with
    | none => simp [Registry.create_job, hsel, assignJob, Job.to_response, mkJob]
    | some p => simp [Registry.create_job, hsel, assignJob, Job.to_response]
  · cases hsel : r.select_peer_for_model d.model_name with
    | none =>
        left
        simp [Registry.create_job, hsel, assignJob, Job.to_response, mkJob]
    | some p =>
        right
        simp [Registry.create_job, hsel, assignJob, Job.to_response]
  · intro r2 jid2 d2 now2 res hupd k j hk
    unfold Registry.update_job_status at hupd
    cases hl : lookupKey jid2 r2.jobs with
    | none => rw [hl] at hupd; exact absurd hupd (by simp)
    | some j0 =>
        rw [hl] at hupd
        injection hupd with hres
        rw [← hres]
        by_cases hkj : k = jid2
        · subst hkj
          rw [hk] at hl
          injection hl with hjj
          refine ⟨applyUpdate j0 d2 now2, ?_, ?_⟩
          · exact lookupKey_setKey_self k (applyUpdate j0 d2 now2) r2.jobs
          · rw [← hjj]
            simp [applyUpdate]
        · refine ⟨j, ?_, rfl⟩
          have := lookupKey_setKey_ne (applyUpdate j0 d2 now2) hkj r2.jobs
          rw [show ({ r2 with jobs := setKey jid2 (applyUpdate j0 d2 now2) r2.jobs } : Registry).jobs
              = setKey jid2 (applyUpdate j0 d2 now2) r2.jobs from rfl]
          rw [this]
          exact hk

/-- Witness for the amended C4: creating a job on an empty registry leaves
it QUEUED, and the theorem yields that its assigned peer is null. -/
theorem claim4_amended_witness :
    (Registry.create_job Registry.empty "J" reqR 0).1.status = JobStatus.QUEUED ∧
    (Registry.create_job Registry.empty "J" reqR 0).1.assigned_peer_id = none :=
  ⟨by decide, (claim4_amended_assignment_iff_at_creation Registry.empty "J" reqR 0).2.1 (by decide)⟩

/-- Claim C5: a peer whose last heartbeat is older than the 30-second
liveness timeout is excluded from ListPeers(onlyOnline true) and included in
ListPeers(onlyOnline false), and a subsequent successful heartbeat makes it
listed as online again immediately, however long it had been silent. -/
theorem claim5_liveness_listing_and_revival
    (r : Registry) (pid : String) (p : Peer) (now : Nat)
    (hwf : Registry.PeersWF r) (hp : lookupKey pid r.peers = some p) :
    (now - p.last_heartbeat > livenessTimeout →
      (∀ q ∈ (Registry.list_peers r true now).1, q.id ≠ pid) ∧
      (∃ q ∈ (Registry.list_peers r false now).1, q.id = pid)) ∧
    (∀ (d : PeerHeartbeatRequest) (now2 : Nat) (res : PeerResponse × Registry),
      Registry.heartbeat r pid d now2 = Except.ok res →
      ∃ q ∈ (Registry.list_peers res.2 true now2).1, q.id = pid) := by
  have hpid : p.id = pid := hwf.2 (pid, p) (lookupKey_mem hp)
  constructor
  · intro hstale
    constructor
    · intro q hq hqid
      simp only [Registry.list_peers] at hq
      rw [if_pos trivial] at hq
      obtain ⟨p2, hp2, hq2⟩ := List.mem_map.mp hq
      obtain ⟨hp2v, hp2on⟩ := List.mem_filter.mp hp2
      rw [vals_markAll] at hp2v
      obtain ⟨kv, hkv, hmk⟩ := List.mem_map.mp hp2v
      obtain ⟨k1, pv⟩ := kv
      have hid : p2.id = pid := by
        rw [← hq2] at hqid
        simpa [Peer.to_response] using hqid
      have hpvid : pv.id = pid := by
        have h1 : (markPeer now pv).id = p2.id := by rw [hmk]
        rw [markPeer_id] at h1
        rw [h1]
        exact hid
      have hk1 : k1 = pid := by
        have hkk : pv.id = k1 := hwf.2 (k1, pv) hkv
        rw [← hkk]
        exact hpvid
      have hlk : lookupKey pid r.peers = some pv := by
        apply lookupKey_of_mem_nodup hwf.1
        rw [← hk1]
        exact hkv
      have hpv : pv = p := by
        rw [hlk] at hp
        exact Option.some.inj hp
      have hoff : p2.is_online = false := by
        rw [← hmk, hpv]
        exact markPeer_stale hstale
      rw [hp2on] at hoff
      exact absurd hoff (by decide)
    · have hmem : (pid, p) ∈ r.peers := lookupKey_mem hp
      refine ⟨Peer.to_response (markPeer now p), ?_, ?_⟩
      · simp only [Registry.list_peers]
        rw [if_neg (by decide)]
        apply List.mem_map_of_mem
        rw [vals_markAll]
        exact List.mem_map_of_mem _ hmem
      · have : (Peer.to_response (markPeer now p)).id = (markPeer now p).id := rfl
        rw [this, markPeer_id]
        exact hpid
  · intro d now2 res hhb
    unfold Registry.heartbeat at hhb
    rw [hp] at hhb
    injection hhb with hres
    obtain ⟨hid, hname, hhost, hport, hgpu, htot, hmods, hlast, honl, hfree, hload⟩ :=
      updateFromHeartbeat_fields p d now2
    refine ⟨Peer.to_response (updateFromHeartbeat p d now2), ?_, ?_⟩
    · rw [← hres]
      simp only [Registry.list_peers]
      rw [if_pos trivial]
      apply List.mem_map_of_mem
      apply List.mem_filter.mpr
      constructor
      · rw [vals_markAll]
        have hm2 : (pid, updateFromHeartbeat p d now2) ∈
            setKey pid (updateFromHeartbeat p d now2) r.peers :=
          mem_setKey_self _ _ _
        have hmm := List.mem_map_of_mem (fun kv => markPeer now2 kv.2) hm2
        have hfix : markPeer now2 (updateFromHeartbeat p d now2) =
            updateFromHeartbeat p d now2 := markPeer_fresh hlast
        have hmm2 : markPeer now2 (updateFromHeartbeat p d now2) ∈
            List.map (fun kv => markPeer now2 kv.2)
              (setKey pid (updateFromHeartbeat p d now2) r.peers) := hmm
        rw [hfix] at hmm2
        exact hmm2
      · exact honl
    · have : (Peer.to_response (updateFromHeartbeat p d now2)).id =
          (updateFromHeartbeat p d now2).id := rfl
      rw [this, hid]
      exact hpid

/-- Witness for C5: with peer A last heard from at time 0 and the clock at
100, A is absent from the online listing and present in the full listing. -/
theorem claim5_witness :
    Registry.PeersWF rA1 ∧ lookupKey "A" rA1.peers = some peerA ∧
    100 - peerA.last_heartbeat > livenessTimeout ∧
    (∀ q ∈ (Registry.list_peers rA1 true 100).1, q.id ≠ "A") ∧
    (∃ q ∈ (Registry.list_peers rA1 false 100).1, q.id = "A") := by
  have h := (claim5_liveness_listing_and_revival rA1 "A" peerA 100 (by decide) (by decide)).1
    (by decide)
  exact ⟨by decide, by decide, by decide, h.1, h.2⟩

/-- Claim C6: creating a job for a model with no eligible peer yields a
QUEUED job with a null assigned peer, and no operation of the core ever
reassigns a stored job afterwards: register, heartbeat and listing leave the
job dict untouched, creating another job leaves the stored job's entry
untouched, and a status update never changes an assigned peer. -/
theorem claim6_queued_no_reassignment
    (r : Registry) (job_id : String) (d : JobCreateRequest) (now : Nat) :
    (Registry.select_peer_for_model r d.model_name = none →
      (Registry.create_job r job_id d now).1.status = JobStatus.QUEUED ∧
      (Registry.create_job r job_id d now).1.assigned_peer_id = none ∧
      lookupKey job_id ((Registry.create_job r job_id d now).2).jobs =
        some (mkJob job_id d now) ∧
      (mkJob job_id d now).status = JobStatus.QUEUED ∧
      (mkJob job_id d now).assigned_peer_id = none) ∧
    (∀ pid prd, ((Registry.register_peer r pid prd now).2).jobs = r.jobs) ∧
    (∀ pid hb res2, Registry.heartbeat r pid hb now = Except.ok res2 →
      res2.2.jobs = r.jobs) ∧
    (∀ b, ((Registry.list_peers r b now).2).jobs = r.jobs) ∧
    (∀ jid2 d2, jid2 ≠ job_id →
      lookupKey job_id ((Registry.create_job r jid2 d2 now).2).jobs =
        lookupKey job_id r.jobs) ∧
    (∀ jid2 d2 res2, Registry.update_job_status r jid2 d2 now = Except.ok res2 →
      ∀ j, lookupKey job_id r.jobs = some j →
        ∃ j2, lookupKey job_id res2.2.jobs = some j2 ∧
          j2.assigned_peer_id = j.assigned_peer_id) := by
  refine ⟨?_, ?_, ?_, ?_, ?_, ?_⟩
  · intro hsel
    refine ⟨?_, ?_, ?_, rfl, rfl⟩
    · simp [Registry.create_job, hsel, assignJob, Job.to_response, mkJob]
    · simp [Registry.create_job, hsel, assignJob, Job.to_response, mkJob]
    · simp only [Registry.create_job, hsel, assignJob]
      exact lookupKey_setKey_self _ _ _
  · intro pid prd
    rfl
  · intro pid hb res2 hh
    unfold Registry.heartbeat at hh
    cases hl : lookupKey pid r.peers with
    | none => rw [hl] at hh; exact absurd hh (by simp)
    | some pp =>
        rw [hl] at hh
        injection hh with hres
        rw [← hres]
  · intro b
    rfl
  · intro jid2 d2 hne
    simp only [Registry.create_job]
    exact lookupKey_setKey_ne _ (Ne.symm hne) r.jobs
  · intro jid2 d2 res2 hupd j hj
    unfold Registry.update_job_status at hupd
    cases hl : lookupKey jid2 r.jobs with
    | none => rw [hl] at hupd; exact absurd hupd (by simp)
    | some j0 =>
        rw [hl] at hupd
        injection hupd with hres
        rw [← hres]
        by_cases hkj : job_id = jid2
        · subst hkj
          rw [hj] at hl
          injection hl with hjj
          refine ⟨applyUpdate j0 d2 now, lookupKey_setKey_self _ _ _, ?_⟩
          rw [← hjj]
          simp [applyUpdate]
        · refine ⟨j, ?_, rfl⟩
          have hlook := lookupKey_setKey_ne (applyUpdate j0 d2 now) hkj r.jobs
          rw [show ({ r with jobs := setKey jid2 (applyUpdate j0 d2 now) r.jobs } : Registry).jobs
              = setKey jid2 (applyUpdate j0 d2 now) r.jobs from rfl]
          rw [hlook]
          exact hj

/-- Witness for C6: creating a job for bert-large on the empty registry
(no eligible peer) leaves it QUEUED with no assigned peer. -/
theorem claim6_witness :
    Registry.select_peer_for_model Registry.empty reqBert.model_name = none ∧
    (Registry.create_job Registry.empty "J" reqBert 0).1.status = JobStatus.QUEUED ∧
    (Registry.create_job Registry.empty "J" reqBert 0).1.assigned_peer_id = none := by
  have h := (claim6_queued_no_reassignment Registry.empty "J" reqBert 0).1 (by decide)
  exact ⟨by decide, h.1, h.2.1⟩

/-- Claim C7: UpdateStatus fails with NotFound exactly when the job is
absent, and otherwise overwrites status, result reference and error message
unconditionally with the passed values (including nulls), sets updatedAt to
now, and a subsequent GetJob sees the overwritten snapshot. -/
theorem claim7_update_status_overwrites
    (r : Registry) (job_id : String) (d : JobUpdateStatusRequest) (now : Nat) :
    ((∃ e, Registry.update_job_status r job_id d now = Except.error e) ↔
      lookupKey job_id r.jobs = none) ∧
    (∀ j, lookupKey job_id r.jobs = some j →
      Registry.update_job_status r job_id d now =
        Except.ok ((applyUpdate j d now).to_response,
          { r with jobs := setKey job_id (applyUpdate j d now) r.jobs }) ∧
      Registry.get_job { r with jobs := setKey job_id (applyUpdate j d now) r.jobs } job_id =
        Except.ok (Job.to_response (applyUpdate j d now)) ∧
      (applyUpdate j d now).status = d.status ∧
      (applyUpdate j d now).result_url = d.result_url ∧
      (applyUpdate j d now).error_message = d.error_message ∧
      (applyUpdate j d now).updated_at = now ∧
      (Job.to_response (applyUpdate j d now)).status = d.status ∧
      (Job.to_response (applyUpdate j d now)).result_url = d.result_url) := by
  constructor
  · constructor
    · rintro ⟨e, he⟩
      cases hl : lookupKey job_id r.jobs with
      | none => rfl
      | some j0 => simp [Registry.update_job_status, hl] at he
    · intro hnone
      refine ⟨"Job not found", ?_⟩
      simp [Registry.update_job_status, hnone]
  · intro j hj
    refine ⟨?_, ?_, rfl, rfl, rfl, rfl, rfl, rfl⟩
    · simp [Registry.update_job_status, hj]
    · simp [Registry.get_job, lookupKey_setKey_self]

/-- Witness for C7: the scenario of the spec, updating the stored job to
COMPLETED with result ok, after which GetJob reports COMPLETED and ok. -/
theorem claim7_witness :
    lookupKey "J" rJ.jobs = some jA ∧
    Registry.update_job_status rJ "J" updOK 5 =
      Except.ok ((applyUpdate jA updOK 5).to_response,
        { rJ with jobs := setKey "J" (applyUpdate jA updOK 5) rJ.jobs }) ∧
    Registry.get_job { rJ with jobs := setKey "J" (applyUpdate jA updOK 5) rJ.jobs } "J" =
      Except.ok (Job.to_response (applyUpdate jA updOK 5)) ∧
    (Job.to_response (applyUpdate jA updOK 5)).status = JobStatus.COMPLETED ∧
    (Job.to_response (applyUpdate jA updOK 5)).result_url = some "ok" := by
  have h := (claim7_update_status_overwrites rJ "J" updOK 5).2 jA (by decide)
  exact ⟨by decide, h.1, h.2.1, h.2.2.2.2.2.2.1, h.2.2.2.2.2.2.2⟩

/-- Claim C8: a successful heartbeat overwrites only the fields carried by
the payload, leaves identity, name, host, port, GPU flag, total memory and
model list untouched, sets lastHeartbeat to now, forces the online flag,
never changes the key set of the peer dict (no duplication), leaves the
other entries and the jobs untouched, and repeating the identical heartbeat
changes nothing further. -/
theorem claim8_heartbeat_frame
    (r : Registry) (pid : String) (p : Peer) (d : PeerHeartbeatRequest) (now : Nat)
    (h : lookupKey pid r.peers = some p) :
    Registry.heartbeat r pid d now =
      Except.ok ((updateFromHeartbeat p d now).to_response,
        { r with peers := setKey pid (updateFromHeartbeat p d now) r.peers }) ∧
    (updateFromHeartbeat p d now).id = p.id ∧
    (updateFromHeartbeat p d now).name = p.name ∧
    (updateFromHeartbeat p d now).host = p.host ∧
    (updateFromHeartbeat p d now).port = p.port ∧
    (updateFromHeartbeat p d now).has_gpu = p.has_gpu ∧
    (updateFromHeartbeat p d now).gpu_memory_total_mb = p.gpu_memory_total_mb ∧
    (updateFromHeartbeat p d now).models = p.models ∧
    (updateFromHeartbeat p d now).last_heartbeat = now ∧
    (updateFromHeartbeat p d now).is_online = true ∧
    (d.gpu_memory_free_mb = none →
      (updateFromHeartbeat p d now).gpu_memory_free_mb = p.gpu_memory_free_mb) ∧
    (∀ v, d.gpu_memory_free_mb = some v →
      (updateFromHeartbeat p d now).gpu_memory_free_mb = some v) ∧
    (d.current_load_percent = none →
      (updateFromHeartbeat p d now).current_load_percent = p.current_load_percent) ∧
    (∀ v, d.current_load_percent = some v →
      (updateFromHeartbeat p d now).current_load_percent = v) ∧
    (setKey pid (updateFromHeartbeat p d now) r.peers).map Prod.fst =
      r.peers.map Prod.fst ∧
    (∀ k2 v2, k2 ≠ pid →
      ((k2, v2) ∈ setKey pid (updateFromHeartbeat p d now) r.peers ↔ (k2, v2) ∈ r.peers)) ∧
    ({ r with peers := setKey pid (updateFromHeartbeat p d now) r.peers } : Registry).jobs
      = r.jobs ∧
    Registry.heartbeat { r with peers := setKey pid (updateFromHeartbeat p d now) r.peers }
        pid d now =
      Except.ok ((updateFromHeartbeat p d now).to_response,
        { r with peers := setKey pid (updateFromHeartbeat p d now) r.peers }) := by
  obtain ⟨hid, hname, hhost, hport, hgpu, htot, hmods, hlast, honl, hfree, hload⟩ :=
    updateFromHeartbeat_fields p d now
  refine ⟨?_, hid, hname, hhost, hport, hgpu, htot, hmods, hlast, honl,
    ?_, ?_, ?_, ?_, ?_, ?_, rfl, ?_⟩
  · simp [Registry.heartbeat, h]
  · intro hn
    rw [hfree, hn]
  · intro v hv
    rw [hfree, hv]
  · intro hn
    rw [hload, hn]
  · intro v hv
    rw [hload, hv]
  · exact map_fst_setKey h
  · intro k2 v2 hne
    exact mem_setKey_of_ne hne
  · have hl2 : lookupKey pid (setKey pid (updateFromHeartbeat p d now) r.peers) =
        some (updateFromHeartbeat p d now) := lookupKey_setKey_self _ _ _
    simp [Registry.heartbeat, hl2, updateFromHeartbeat_idem, setKey_setKey_self]

/-- Witness for C8: peer A receives the worker's heartbeat at time 10;
the call succeeds with the updated snapshot, the key set is unchanged and
repeating the identical heartbeat yields the identical result and state. -/
theorem claim8_witness :
    lookupKey "A" rA1.peers = some peerA ∧
    Registry.heartbeat rA1 "A" hb10 10 =
      Except.ok ((updateFromHeartbeat peerA hb10 10).to_response,
        { rA1 with peers := setKey "A" (updateFromHeartbeat peerA hb10 10) rA1.peers }) ∧
    (setKey "A" (updateFromHeartbeat peerA hb10 10) rA1.peers).map Prod.fst =
      rA1.peers.map Prod.fst ∧
    Registry.heartbeat
        { rA1 with peers := setKey "A" (updateFromHeartbeat peerA hb10 10) rA1.peers }
        "A" hb10 10 =
      Except.ok ((updateFromHeartbeat peerA hb10 10).to_response,
        { rA1 with peers := setKey "A" (updateFromHeartbeat peerA hb10 10) rA1.peers }) := by
  have h := claim8_heartbeat_frame rA1 "A" peerA hb10 10 (by decide)
  obtain ⟨h1, _, _, _, _, _, _, _, _, _, _, _, _, _, h15, _, _, h18⟩ := h
  exact ⟨by decide, h1, h15, h18⟩

/-- Claim C9 as stated is false: the reference does reject an out-of-range
load, through the pydantic range constraint on the heartbeat schema; a
heartbeat for the registered peer A carrying load 150 is answered with a
validation error, not success. -/
theorem claim9_counterexample :
    lookupKey "A" rA1.peers = some peerA ∧
    ¬(0 ≤ (150 : Int) ∧ (150 : Int) ≤ 100) ∧
    heartbeat_endpoint rA1 "A" hb150 0 = Except.error HttpError.validationError := by
  refine ⟨by decide, by decide, by decide⟩

/-- Amended C9: the registry's own heartbeat performs no range check and
stores whatever load value it receives (the spec's remark holds of the core
function), but the heartbeat request schema constrains the load to 0..100,
so an out-of-range heartbeat is rejected at the boundary with a validation
error and never reaches the registry. -/
theorem claim9_amended_validation_split
    (r : Registry) (pid : String) (p : Peer) (d : PeerHeartbeatRequest) (v : Int) (now : Nat)
    (hp : lookupKey pid r.peers = some p) (hv : d.current_load_percent = some v) :
    Registry.heartbeat r pid d now =
      Except.ok ((updateFromHeartbeat p d now).to_response,
        { r with peers := setKey pid (updateFromHeartbeat p d now) r.peers }) ∧
    (updateFromHeartbeat p d now).current_load_percent = v ∧
    lookupKey pid (setKey pid (updateFromHeartbeat p d now) r.peers) =
      some (updateFromHeartbeat p d now) ∧
    (¬(0 ≤ v ∧ v ≤ 100) →
      heartbeat_endpoint r pid d now = Except.error HttpError.validationError) := by
  obtain ⟨_, _, _, _, _, _, _, _, _, _, hload⟩ := updateFromHeartbeat_fields p d now
  refine ⟨?_, ?_, lookupKey_setKey_self _ _ _, ?_⟩
  · simp [Registry.heartbeat, hp]
  · rw [hload, hv]
  · intro hrange
    have hval : d.isValid = false := by
      unfold PeerHeartbeatRequest.isValid
      rw [hv]
      exact decide_eq_false hrange
    unfold heartbeat_endpoint
    rw [hval]
    simp

/-- Witness for the amended C9: the core stores load 150 for peer A when
called directly, while the endpoint rejects the same payload. -/
theorem claim9_amended_witness :
    lookupKey "A" rA1.peers = some peerA ∧
    hb150.current_load_percent = some 150 ∧
    (updateFromHeartbeat peerA hb150 0).current_load_percent = 150 ∧
    heartbeat_endpoint rA1 "A" hb150 0 = Except.error HttpError.validationError := by
  have h := claim9_amended_validation_split rA1 "A" peerA hb150 150 0 (by decide) (by decide)
  exact ⟨by decide, by decide, h.2.1, h.2.2.2 (by decide)⟩

/-- Claim C10: job snapshots hide error message and both timestamps: a job
snapshot is unchanged under any change of those three fields, update-status
answers with the same snapshot whether or not an error message is stored and
whatever the clock says, the states so produced are indistinguishable
through GetJob and ListJobs, and CreateJob's snapshot does not depend on the
clock. -/
theorem claim10_responses_hide_error_and_timestamps :
    (∀ (j : Job) (e : Option String) (c u : Nat),
      Job.to_response { j with error_message := e, created_at := c, updated_at := u } =
        Job.to_response j) ∧
    (∀ (r : Registry) (jid : String) (d : JobUpdateStatusRequest) (n1 n2 : Nat),
      Except.map Prod.fst (Registry.update_job_status r jid d n1) =
        Except.map Prod.fst
          (Registry.update_job_status r jid { d with error_message := none } n2)) ∧
    (∀ (r : Registry) (jid : String) (d : JobUpdateStatusRequest) (n1 n2 : Nat)
        (o1 o2 : JobResponse × Registry),
      Registry.update_job_status r jid d n1 = Except.ok o1 →
      Registry.update_job_status r jid { d with error_message := none } n2 = Except.ok o2 →
      Registry.get_job o1.2 jid = Registry.get_job o2.2 jid ∧
        Registry.list_jobs o1.2 = Registry.list_jobs o2.2) ∧
    (∀ (r : Registry) (jid : String) (dc : JobCreateRequest) (n1 n2 : Nat),
      (Registry.create_job r jid dc n1).1 = (Registry.create_job r jid dc n2).1) := by
  refine ⟨?_, ?_, ?_, ?_⟩
  · intro j e c u
    rfl
  · intro r jid d n1 n2
    cases hl : lookupKey jid r.jobs with
    | none => simp [Registry.update_job_status, hl]
    | some j =>
        simp [Registry.update_job_status, hl, applyUpdate, Job.to_response, Except.map]
  · intro r jid d n1 n2 o1 o2 h1 h2
    cases hl : lookupKey jid r.jobs with
    | none => simp [Registry.update_job_status, hl] at h1
    | some j =>
        simp only [Registry.update_job_status, hl] at h1 h2
        injection h1 with e1
        injection h2 with e2
        rw [← e1, ← e2]
        constructor
        · simp [Registry.get_job, lookupKey_setKey_self, applyUpdate, Job.to_response]
        · simp only [Registry.list_jobs, vals]
          exact map_snd_setKey_congr Job.to_response
            (by simp [applyUpdate, Job.to_response]) r.jobs
  · intro r jid dc n1 n2
    cases hsel : r.select_peer_for_model dc.model_name with
    | none => simp [Registry.create_job, hsel, assignJob, Job.to_response, mkJob]
    | some q => simp [Registry.create_job, hsel, assignJob, Job.to_response, mkJob]

/-- Witness for C10: storing an error message (updErr) and storing none of
it produce the same snapshot and states indistinguishable by GetJob and
ListJobs, taken at different clock values. -/
theorem claim10_witness :
    Registry.update_job_status rJ "J" updErr 5 = Except.ok (j10a.to_response, r10a) ∧
    Registry.update_job_status rJ "J" { updErr with error_message := none } 9 =
      Except.ok (j10b.to_response, r10b) ∧
    Registry.get_job r10a "J" = Registry.get_job r10b "J" ∧
    Registry.list_jobs r10a = Registry.list_jobs r10b := by
  have h := claim10_responses_hide_error_and_timestamps.2.2.1 rJ "J" updErr 5 9
    (j10a.to_response, r10a) (j10b.to_response, r10b) (by decide) (by decide)
  exact ⟨by decide, by decide, h.1, h.2⟩

end PBL
